import Mathlib

/-!
Verification of the session-protocol spec of the multimodal-live-api-web-console
repository against its source.

The repository under inspection contains two UI components that drive a live
session client:
* `src/components/memento/Memento.tsx` (the Memento component), and
* the GeminiMatrix component whose full source is embedded in `README.md`.

Both components interact with a `MultimodalLiveClient` session core whose own
source is not part of the repository snapshot; where a claim is decided by that
missing core (the tool-call correlator, the message codec, the semantics of
`client.send`), the relevant operation is modelled from the specification and
marked `Modelled from the spec:` in its doc comment.  Everything else below is
a direct shallow embedding of the TypeScript source: JavaScript arrays become
`List`, objects become structures or `JValue` objects, loops become structural
recursion over the iteration range, and `setTimeout` becomes an explicit
`Emission.timer` value.

Modelling notes, applying throughout:
* `console.log` calls are not modelled (pure diagnostics).
* Asynchronous file-system and network results are supplied by explicit
  environment records (`FsEnv`, `MatrixEnv`) instead of `await`.
* JavaScript `undefined` is modelled by `Option`.
-/

/-! ## JSON-like values (the TypeScript `Dictionary` / `any` payloads) -/

/-- A JSON-like value, standing for the TypeScript `Dictionary` payloads and
`fc.args` objects that the components build and pass around. -/
inductive JValue where
  | null
  | str (s : String)
  | num (n : Int)
  | bool (b : Bool)
  | arr (items : List JValue)
  | obj (fields : List (String × JValue))

/-- Property lookup on a JSON object (`v[key]`); `none` models `undefined`. -/
def jLookup (v : JValue) (key : String) : Option JValue :=
  match v with
  | .obj fields => lookupField fields
  | _ => none
where
  lookupField : List (String × JValue) → Option JValue
    | [] => none
    | (k, x) :: rest => if k = key then some x else lookupField rest

/-- Reads a string-valued property, as the TypeScript casts assume. -/
def jStr (v : JValue) (key : String) : Option String :=
  match jLookup v key with
  | some (.str s) => some s
  | _ => none

/-- Reads an integer-valued property, as the TypeScript casts assume. -/
def jInt (v : JValue) (key : String) : Option Int :=
  match jLookup v key with
  | some (.num n) => some n
  | _ => none

/-- Reads a boolean-valued property. -/
def jBool (v : JValue) (key : String) : Option Bool :=
  match jLookup v key with
  | some (.bool b) => some b
  | _ => none

/-- Reads a `string[][]`-valued property (used for the `value` argument of the
matrix block setters). -/
def jStrMatrix (v : JValue) (key : String) : Option (List (List String)) :=
  match jLookup v key with
  | some (.arr rows) => rows.mapM rowStrings
  | _ => none
where
  rowStrings : JValue → Option (List String)
    | .arr cells => cells.mapM cellString
    | _ => none
  cellString : JValue → Option String
    | .str s => some s
    | _ => none

/-! ## Wire-message shapes used by the components -/

/-- One entry of an inbound `toolCall` batch (`multimodal-live-types`:
`{id, name, args}`). -/
structure FunctionCall where
  id : String
  name : String
  args : JValue

/-- An inbound `toolCall` server message: a batch of function calls. -/
structure ToolCall where
  functionCalls : List FunctionCall

/-- One entry of an outbound `toolResponse` frame (`{response, id}` as built by
the components). -/
structure FunctionResponse where
  id : String
  response : JValue

/-- An outbound `toolResponse` frame. -/
structure ToolResponseMsg where
  functionResponses : List FunctionResponse

/-- One text content part of an outbound `clientContent` frame. -/
structure ContentPart where
  text : String

/-! ## The Configuration value supplied via `setConfig` -/

structure PrebuiltVoiceConfig where
  voiceName : String

structure VoiceConfig where
  prebuiltVoiceConfig : PrebuiltVoiceConfig

structure SpeechConfig where
  voiceConfig : VoiceConfig

structure GenerationConfigM where
  responseModalities : String
  speechConfig : SpeechConfig
  maxOutputTokens : Option Nat

structure SIPart where
  text : String

structure SystemInstructionM where
  parts : List SIPart

/-- One property of a function-declaration parameter schema: name, schema type
and whether further nesting exists is kept abstract as in the source casts. -/
structure SchemaProp where
  propName : String
  schemaType : String

/-- A declared tool function (`FunctionDeclaration` from the source); the long
natural-language `description` strings are prompt content with no effect on
control flow and are elided from the embedding. -/
structure FunctionDeclarationM where
  name : String
  properties : List SchemaProp
  required : List String

/-- One entry of the `tools` array of the configuration. -/
inductive ToolDeclEntry where
  | googleSearch
  | functionDeclarations (decls : List FunctionDeclarationM)

/-- The full value passed to `setConfig` by a component. -/
structure LiveConfig where
  model : String
  generationConfig : GenerationConfigM
  systemInstruction : SystemInstructionM
  tools : List ToolDeclEntry

/-! ## The client-facing surface and the components' observable actions -/

/-- One interaction with the session core, as performed by the UI components.
The constructors `readInternalField` and `mutateInternalField` stand for the
forbidden direct accesses to client internals; no component action below uses
them, which is exactly what the frame claims assert. -/
inductive ClientOp where
  | setConfig (cfg : LiveConfig)
  | subscribe (channel : String)
  | unsubscribe (channel : String)
  | send (parts : List ContentPart) (endOfTurn : Bool)
  | sendToolResponse (frame : ToolResponseMsg)
  | readInternalField (field : String)
  | mutateInternalField (field : String)

/-- An outbound core interaction, either performed synchronously or scheduled
through `setTimeout` with a delay in milliseconds. -/
inductive Emission where
  | immediate (op : ClientOp)
  | timer (delayMs : Nat) (op : ClientOp)

/-- The underlying client operation of an emission, independent of scheduling. -/
def Emission.op : Emission → ClientOp
  | .immediate o => o
  | .timer _ o => o

/-- True when the emission is scheduled through a timer rather than executed
synchronously in the issuing call. -/
def Emission.isTimer : Emission → Bool
  | .immediate _ => false
  | .timer _ _ => true

/-- One observable action of a component: a core interaction, a local React
state update, or a browser file-system effect (Memento only). -/
inductive CompAction where
  | emit (e : Emission)
  | setHtml (v : Option JValue)
  | setDataF (f : List (List String) → List (List String))
  | setStylesF (f : List (List JValue) → List (List JValue))
  | setEditCell (cell : Option (Nat × Nat))
  | fsSetup
  | fsList
  | fsWrite (name contents : Option String) (append : Bool)
  | fsRead (name : Option String)

/-! ## The shared outbound helpers (source: `sendToolResponse`,
`sendUserMessage`; both component files define the identical
`sendToolResponse`) -/

/-- The `toolResponse` frame built by the helper: it maps over all function
calls of the batch, pairing every id in the batch with the single response
payload. -/
def toolResponseFrame (toolCall : ToolCall) (response : JValue) : ToolResponseMsg :=
  { functionResponses := toolCall.functionCalls.map (fun fc => { id := fc.id, response := response }) }

/-- The helper generalized over the `setTimeout` delay, to state that the
particular delay value does not affect the frame. -/
def sendToolResponseDelayed (delayMs : Nat) (toolCall : ToolCall) (response : JValue) : Emission :=
  .timer delayMs (.sendToolResponse (toolResponseFrame toolCall response))

/-- Embeds `sendToolResponse` from `Memento.tsx` (the README component defines
the identical function): after a 200 ms `setTimeout`, one
`client.sendToolResponse` frame is issued. -/
def sendToolResponse (toolCall : ToolCall) (response : JValue) : Emission :=
  sendToolResponseDelayed 200 toolCall response

/-- Modelled from the spec: `MultimodalLiveClient.send` is not under `src/`;
per the spec, `sendText(parts, endOfTurn)` issues one `clientContent` frame,
and the scenario fixes `endOfTurn = true` for a plain user text submission, so
the component's single-argument `client.send(parts)` closes the user turn. -/
def clientSendUserTurn (parts : List ContentPart) : ClientOp :=
  .send parts true

/-- The user-message helper generalized over the `setTimeout` delay. -/
def sendUserMessageDelayed (delayMs : Nat) (text : String) : Emission :=
  .timer delayMs (clientSendUserTurn [{ text := text }])

/-- Embeds `sendUserMessage` from the README component: after a 200 ms
`setTimeout`, one `client.send([{text}])` call is issued. -/
def sendUserMessage (text : String) : Emission :=
  sendUserMessageDelayed 200 text

/-! ## Matrix helpers from the GeminiMatrix component (README source) -/

/-- Embeds `resolve_index`: a negative index counts from one past the end, so
that `-1` resolves to `length` (an exclusive bound that includes the last
element). -/
def resolve_index (index : Int) (length : Nat) : Int :=
  if index < 0 then (length : Int) + index + 1 else index

/-- Embeds `newMatrix`: a `size` by `size` matrix filled with one value. -/
def newMatrix {α : Type} (size : Nat) (fill : α) : List (List α) :=
  (List.range size).map (fun _ => List.replicate size fill)

/-- JavaScript loose inequality against `undefined` on a JSON value: `x !=
undefined` is false exactly on `null` and `undefined`, so a JSON `null` cell
counts as nullish. -/
def JValue.isNullish : JValue → Bool
  | .null => true
  | _ => false

/-- Whether an optional cell holds a value that passes the source's
`!= undefined` guard: an absent cell (`undefined`) and a nullish value both
fail it. -/
def nonNullishCell {α : Type} (isNullish : α → Bool) : Option α → Bool
  | some x => !isNullish x
  | none => false

/-- The inner column loop of `setMatrixBlock`: writes the cells of `vrow` into
`row` at consecutive positions starting at `c`.  Each write is guarded by the
source's `value[...][...] != undefined`, a JavaScript loose inequality that is
false on `null` as well as `undefined`; because the cell type is generic, the
nullish test on it is taken as the explicit parameter `isNullish`, which each
call site instantiates with the test the runtime values there satisfy.  An
out-of-range `List.set` is a no-op where the JavaScript original would throw
or extend the array; all claims stay inside the in-bounds domain where both
agree. -/
def writeRowFrom {α : Type} (isNullish : α → Bool) (row : List α) (c : Nat)
    (vrow : List α) : List α :=
  match vrow with
  | [] => row
  | x :: xs =>
    writeRowFrom isNullish (if isNullish x then row else row.set c x) (c + 1) xs

/-- The row loop of `setMatrixBlock`: writes the rows of `v` into `m` starting
at row `r`, each row written from column `c`.  The source's row guard
`value[rowIndex - newStartRow] != undefined` corresponds to the range check of
the `List` representation, whose in-range entries are always present rows. -/
def writeBlockFrom {α : Type} (isNullish : α → Bool) (m : List (List α)) (r c : Nat)
    (v : List (List α)) : List (List α) :=
  match v with
  | [] => m
  | vrow :: vrest =>
    writeBlockFrom isNullish
      (match m[r]? with
       | none => m
       | some row => m.set r (writeRowFrom isNullish row c vrow))
      (r + 1) c vrest

/-- Embeds `setMatrixBlock`: resolves the start indices, clones the matrix and
overwrites the rectangular block with the non-nullish cells of `value`,
keeping the original cell wherever `value` holds a nullish one (the
`!= undefined` guard).  The clone step of the source
(`matrix.map(row => row.slice())`) is implicit in the pure embedding; the
source `try/catch` can only fire on out-of-bounds writes, which the claims'
hypotheses exclude.  Negative resolved indices (below every claim's domain)
are clamped by `Int.toNat`. -/
def setMatrixBlock {α : Type} (isNullish : α → Bool) (matrix : List (List α))
    (startRow startCol : Int) (value : List (List α)) : List (List α) :=
  writeBlockFrom isNullish matrix
    (resolve_index startRow matrix.length).toNat
    (resolve_index startCol matrix.length).toNat
    value

/-- A JavaScript array read `l[i]` at a possibly negative index: negative
indices read a plain property and yield `undefined`, modelled as `none`. -/
def getAt {α : Type} (l : List α) (i : Int) : Option α :=
  if i < 0 then none else l[i.toNat]?

/-- Embeds `selectMatrixBlock`: resolves all four indices and copies the block
row by row.  Reading a missing row throws in JavaScript (`undefined[col]`),
modelled as `Except.error`; reading a missing column pushes `undefined`,
modelled as a `none` cell. -/
def selectMatrixBlock {α : Type} (matrix : List (List α))
    (startRow startCol endRow endCol : Int) : Except Unit (List (List (Option α))) :=
  let nsr := resolve_index startRow matrix.length
  let nsc := resolve_index startCol matrix.length
  let ner := resolve_index endRow matrix.length
  let nec := resolve_index endCol matrix.length
  (List.range (ner - nsr).toNat).mapM (fun (i : Nat) =>
    match getAt matrix (nsr + (i : Int)) with
    | none => Except.error ()
    | some row =>
      Except.ok ((List.range (nec - nsc).toNat).map (fun (j : Nat) => getAt row (nsc + (j : Int)))))

/-- One cell write `cloned[r][c] = x` at possibly negative indices: negative or
missing-row writes do not change any array element. -/
def setCellI {α : Type} (m : List (List α)) (r c : Int) (x : α) : List (List α) :=
  if r < 0 ∨ c < 0 then m
  else
    match m[r.toNat]? with
    | none => m
    | some row => m.set r.toNat (row.set c.toNat x)

/-- Embeds `updateMatrixBlock`: fills the rectangle between the resolved
bounds with one constant value on a clone of the matrix. -/
def updateMatrixBlock {α : Type} (matrix : List (List α))
    (startRow startCol endRow endCol : Int) (value : α) : List (List α) :=
  let nsr := resolve_index startRow matrix.length
  let nsc := resolve_index startCol matrix.length
  let ner := resolve_index endRow matrix.length
  let nec := resolve_index endCol matrix.length
  (List.range (ner - nsr).toNat).foldl (fun acc i =>
    (List.range (nec - nsc).toNat).foldl (fun acc2 j =>
      setCellI acc2 (nsr + i) (nsc + j) value) acc) matrix

/-- Reads one cell of a matrix at natural indices. -/
def getCell {α : Type} (m : List (List α)) (i j : Nat) : Option α :=
  m[i]?.bind (fun row => row[j]?)

/-! ## The Memento component -/

/-- Placeholder for the Memento system-instruction prompt text; the literal
text is natural-language prompt content with no effect on control flow. -/
def mementoSystemInstructionText : String :=
  "memento system instruction prompt text elided"

/-- Embeds `renderHtmlDeclaration` (descriptions elided, see
`FunctionDeclarationM`). -/
def renderHtmlDeclaration : FunctionDeclarationM :=
  { name := "render_html",
    properties := [{ propName := "htmlText", schemaType := "STRING" }],
    required := ["htmlText"] }

/-- Embeds `lsDeclaration`. -/
def lsDeclaration : FunctionDeclarationM :=
  { name := "ls",
    properties := [{ propName := "verbose", schemaType := "BOOLEAN" }],
    required := [] }

/-- Embeds `writeToDeclaration`.  Note the declared optional flag is named
`appendFile` while the handler reads `args.append`. -/
def writeToDeclaration : FunctionDeclarationM :=
  { name := "writeTo",
    properties := [{ propName := "fileName", schemaType := "STRING" },
                   { propName := "contents", schemaType := "STRING" },
                   { propName := "appendFile", schemaType := "BOOLEAN" }],
    required := ["contents", "fileName"] }

/-- Embeds `readTxtFileDeclaration`. -/
def readTxtFileDeclaration : FunctionDeclarationM :=
  { name := "readTxtFile",
    properties := [{ propName := "fileName", schemaType := "STRING" }],
    required := ["fileName"] }

/-- The configuration the Memento component passes to `setConfig` on mount. -/
def mementoConfig : LiveConfig :=
  { model := "models/gemini-2.0-flash-exp",
    generationConfig :=
      { responseModalities := "text",
        speechConfig := { voiceConfig := { prebuiltVoiceConfig := { voiceName := "Aoede" } } },
        maxOutputTokens := none },
    systemInstruction := { parts := [{ text := mementoSystemInstructionText }] },
    tools := [.googleSearch,
              .functionDeclarations [renderHtmlDeclaration, lsDeclaration,
                                     writeToDeclaration, readTxtFileDeclaration]] }

/-- Results of the Memento component's asynchronous browser file-system calls,
supplied as an environment. -/
structure FsEnv where
  lsResult : JValue
  readTxt : Option String → String

/-- The success payload the Memento handler sends for `render_html` and
`writeTo` (the `sucess` spelling is the source's). -/
def mementoSuccessPayload : JValue :=
  .obj [("response", .obj [("output", .obj [("sucess", .bool true)])])]

/-- Embeds the per-invocation `switch (fc.name)` dispatch of the Memento
component's `onToolCall`.  A name matching no declared function falls through
the switch and produces no action.  Each matching branch ends by calling the
shared `sendToolResponse` helper on the whole batch. -/
def mementoDispatch (env : FsEnv) (toolCall : ToolCall) (fc : FunctionCall) : List CompAction :=
  if fc.name = renderHtmlDeclaration.name then
    [ .setHtml (jLookup fc.args "htmlText"),
      .emit (sendToolResponse toolCall mementoSuccessPayload) ]
  else if fc.name = lsDeclaration.name then
    [ .fsList,
      .emit (sendToolResponse toolCall (.obj [("files", env.lsResult)])) ]
  else if fc.name = writeToDeclaration.name then
    [ .fsWrite (jStr fc.args "fileName") (jStr fc.args "contents")
        ((jBool fc.args "append").getD true),
      .emit (sendToolResponse toolCall mementoSuccessPayload) ]
  else if fc.name = readTxtFileDeclaration.name then
    [ .fsRead (jStr fc.args "fileName"),
      .emit (sendToolResponse toolCall
        (.obj [("contents", .str (env.readTxt (jStr fc.args "fileName")))])) ]
  else
    []

/-- The Memento `onToolCall` handler: the batch's invocations are each pushed
through the switch (the source iterates with `forEach` over async callbacks;
the embedding linearizes them in batch order). -/
def mementoOnToolCall (env : FsEnv) (toolCall : ToolCall) : List CompAction :=
  toolCall.functionCalls.flatMap (mementoDispatch env toolCall)

/-- The actions the Memento component performs on mount, in source order: the
first effect runs `setupFileSystem()` then `setConfig(...)`; the second effect
subscribes to the `toolcall` channel. -/
def mementoMountActions : List CompAction :=
  [ .fsSetup,
    .emit (.immediate (.setConfig mementoConfig)),
    .emit (.immediate (.subscribe "toolcall")) ]

/-- The cleanup of the Memento subscription effect. -/
def mementoUnmountActions : List CompAction :=
  [ .emit (.immediate (.unsubscribe "toolcall")) ]

/-! ## The GeminiMatrix component (README source) -/

/-- Placeholder for the `developer_instruction` prompt text (content elided as
for the Memento instruction). -/
def developerInstructionText : String :=
  "gemini matrix developer instruction prompt text elided"

/-- Embeds `getDataBlockDecl`. -/
def getDataBlockDecl : FunctionDeclarationM :=
  { name := "getDataBlock",
    properties := [{ propName := "startRow", schemaType := "INTEGER" },
                   { propName := "startCol", schemaType := "INTEGER" },
                   { propName := "endRow", schemaType := "INTEGER" },
                   { propName := "endCol", schemaType := "INTEGER" }],
    required := ["startRow", "startCol", "endRow", "endCol"] }

/-- Embeds `getStyleBlockDecl`. -/
def getStyleBlockDecl : FunctionDeclarationM :=
  { name := "getStyleBlock",
    properties := [{ propName := "startRow", schemaType := "INTEGER" },
                   { propName := "startCol", schemaType := "INTEGER" },
                   { propName := "endRow", schemaType := "INTEGER" },
                   { propName := "endCol", schemaType := "INTEGER" }],
    required := ["startRow", "startCol", "endRow", "endCol"] }

/-- Embeds `setDataBlockDecl`. -/
def setDataBlockDecl : FunctionDeclarationM :=
  { name := "setDataBlock",
    properties := [{ propName := "startRow", schemaType := "INTEGER" },
                   { propName := "startCol", schemaType := "INTEGER" },
                   { propName := "value", schemaType := "ARRAY" }],
    required := ["startRow", "startCol", "value"] }

/-- Embeds `setStylesBlockDecl`. -/
def setStylesBlockDecl : FunctionDeclarationM :=
  { name := "setStylesBlock",
    properties := [{ propName := "startRow", schemaType := "INTEGER" },
                   { propName := "startCol", schemaType := "INTEGER" },
                   { propName := "value", schemaType := "ARRAY" }],
    required := ["startRow", "startCol", "value"] }

/-- Embeds `geminiAsAToolDecl` (its schema declares no `required` list). -/
def geminiAsAToolDecl : FunctionDeclarationM :=
  { name := "gemini",
    properties := [{ propName := "prompt", schemaType := "STRING" }],
    required := [] }

/-- The configuration the GeminiMatrix component passes to `setConfig` on
mount. -/
def matrixConfig : LiveConfig :=
  { model := "models/gemini-2.0-flash-exp",
    generationConfig :=
      { responseModalities := "text",
        speechConfig := { voiceConfig := { prebuiltVoiceConfig := { voiceName := "Aoede" } } },
        maxOutputTokens := some 5000 },
    systemInstruction := { parts := [{ text := developerInstructionText }] },
    tools := [.googleSearch,
              .functionDeclarations [getDataBlockDecl, setDataBlockDecl,
                                     getStyleBlockDecl, setStylesBlockDecl,
                                     geminiAsAToolDecl]] }

/-- External results used by the GeminiMatrix handler: the gemini-as-a-tool
chat call, `JSON.parse` and `JSON.stringify`. -/
structure MatrixEnv where
  gemini : Option String → String
  jsonParse : String → Option JValue
  stringify : Option JValue → String

/-- The success payload of the matrix block setters. -/
def matrixSuccessPayload : JValue :=
  .obj [("output", .obj [("sucess", .bool true)])]

/-- Encodes a selected block (with `undefined` cells as `null`) for the
`getDataBlock` response payload. -/
def encodeOptStrMatrix (rows : List (List (Option String))) : JValue :=
  .arr (rows.map (fun r => .arr (r.map (fun c =>
    match c with
    | some s => JValue.str s
    | none => JValue.null))))

/-- Embeds the per-invocation `switch (fc.name)` dispatch of the GeminiMatrix
`onToolCall` handler (`data` and `cellStyles` are the state snapshots captured
by the `useCallback`).  Branches whose argument extraction fails, whose
`JSON.parse` throws, or whose block selection reads a missing row reject the
async callback before any response is sent, hence produce no action after the
failure point.  The `catch` arms around the `setData`/`setCellStyles` calls are
unreachable: a React state-setter call does not itself throw. -/
def matrixDispatch (env : MatrixEnv) (data : List (List String))
    (cellStyles : List (List JValue)) (toolCall : ToolCall) (fc : FunctionCall) :
    List CompAction :=
  if fc.name = geminiAsAToolDecl.name then
    [ .emit (sendToolResponse toolCall
        (.obj [("response", .str (env.gemini (jStr fc.args "prompt")))])) ]
  else if fc.name = setDataBlockDecl.name then
    match jInt fc.args "startRow", jInt fc.args "startCol", jStrMatrix fc.args "value" with
    | some startRow, some startCol, some value =>
      -- the extracted cells are genuine JavaScript strings, which are never
      -- loosely equal to undefined, so the write guard is constantly passed
      [ .setDataF (fun matrix => setMatrixBlock (fun _ => false) matrix startRow startCol value),
        .emit (sendToolResponse toolCall matrixSuccessPayload) ]
    | _, _, _ => []
  else if fc.name = setStylesBlockDecl.name then
    match jInt fc.args "startRow", jInt fc.args "startCol", jStrMatrix fc.args "value" with
    | some startRow, some startCol, some value =>
      match value.mapM (fun row => row.mapM env.jsonParse) with
      | some cssValue =>
        -- JSON.parse may yield null, which the write guard of setMatrixBlock
        -- skips (null != undefined is false under loose inequality)
        [ .setStylesF (fun matrix =>
            setMatrixBlock JValue.isNullish matrix startRow startCol cssValue),
          .emit (sendToolResponse toolCall matrixSuccessPayload) ]
      | none => []
    | _, _, _ => []
  else if fc.name = getDataBlockDecl.name then
    match jInt fc.args "startRow", jInt fc.args "startCol",
          jInt fc.args "endRow", jInt fc.args "endCol" with
    | some startRow, some startCol, some endRow, some endCol =>
      match selectMatrixBlock data startRow startCol endRow endCol with
      | .ok result =>
        [ .emit (sendToolResponse toolCall (.obj [("data", encodeOptStrMatrix result)])) ]
      | .error _ => []
    | _, _, _, _ => []
  else if fc.name = getStyleBlockDecl.name then
    match jInt fc.args "startRow", jInt fc.args "startCol",
          jInt fc.args "endRow", jInt fc.args "endCol" with
    | some startRow, some startCol, some endRow, some endCol =>
      match selectMatrixBlock cellStyles startRow startCol endRow endCol with
      | .ok result =>
        [ .emit (sendToolResponse toolCall
            (.obj [("styles", .arr (result.map (fun row =>
              .arr (row.map (fun style => JValue.str (env.stringify style))))))])) ]
      | .error _ => []
    | _, _, _, _ => []
  else
    []

/-- The GeminiMatrix `onToolCall` handler over a batch. -/
def matrixOnToolCall (env : MatrixEnv) (data : List (List String))
    (cellStyles : List (List JValue)) (toolCall : ToolCall) : List CompAction :=
  toolCall.functionCalls.flatMap (matrixDispatch env data cellStyles toolCall)

/-- The single-quote character, built by code point to keep the embedding of
the template literal printable. -/
def squote : String := String.singleton (Char.ofNat 39)

/-- The user message the cell editor sends on submit. -/
def changedCellMsg (rowIndex colIndex : Nat) (newValue : String) : String :=
  "<CHANGED CELL> (" ++ toString rowIndex ++ "," ++ toString colIndex ++ ") to "
    ++ squote ++ newValue ++ squote

/-- Embeds the `MatrixCell` `onSubmit` callback: write the edited cell through
`updateMatrixBlock`, leave edit mode, and send the change notice as a user
message. -/
def matrixCellSubmit (rowIndex colIndex : Nat) (newValue : String) : List CompAction :=
  [ .setDataF (fun data =>
      updateMatrixBlock data rowIndex colIndex (rowIndex + 1) (colIndex + 1) newValue),
    .setEditCell none,
    .emit (sendUserMessage (changedCellMsg rowIndex colIndex newValue)) ]

/-- The actions the GeminiMatrix component performs on mount, in source order:
the first effect calls `setConfig(...)`, the second subscribes to `toolcall`. -/
def matrixMountActions : List CompAction :=
  [ .emit (.immediate (.setConfig matrixConfig)),
    .emit (.immediate (.subscribe "toolcall")) ]

/-- When the `useCallback` identity of the handler changes (its `data` or
`cellStyles` dependencies moved), the subscription effect re-runs: it
unsubscribes the old handler and subscribes the new one. -/
def matrixResubscribeActions : List CompAction :=
  [ .emit (.immediate (.unsubscribe "toolcall")),
    .emit (.immediate (.subscribe "toolcall")) ]

/-- The cleanup of the GeminiMatrix subscription effect. -/
def matrixUnmountActions : List CompAction :=
  [ .emit (.immediate (.unsubscribe "toolcall")) ]

/-! ## The Tool-Call Correlator (spec-modelled) -/

/-- The status of a tool invocation (spec, section 3, `ToolInvocation`). -/
inductive InvStatus where
  | pending
  | answered
  | cancelled
deriving DecidableEq

/-- Modelled from the spec: the Tool-Call Correlator state of the
`MultimodalLiveClient`, which is not under `src/`.  Per section 4.6 it keeps a
map of outstanding invocation ids to their status; the map is an association
list with service-assigned, session-unique keys. -/
structure CorrState where
  invocations : List (String × InvStatus)

/-- First-match association lookup on the correlator map. -/
def lookupStatus (invId : String) : List (String × InvStatus) → Option InvStatus
  | [] => none
  | (k, s) :: rest => if k = invId then some s else lookupStatus invId rest

/-- Marks every entry of the map carrying the given id as answered. -/
def markAnswered (invId : String) (l : List (String × InvStatus)) :
    List (String × InvStatus) :=
  l.map (fun p => if p.1 = invId then (p.1, InvStatus.answered) else p)

/-- Modelled from the spec: on an inbound `toolCall` message the correlator
marks each invocation id of the batch `Pending` (section 4.6). -/
def deliverToolCall (st : CorrState) (toolCall : ToolCall) : CorrState :=
  { invocations :=
      toolCall.functionCalls.map (fun fc => (fc.id, InvStatus.pending)) ++ st.invocations }

/-- The observable outcome of a `respond` call (section 4.6): a sent batch of
`toolResponse` entries, the non-fatal `UnknownInvocationError`, or the silent
no-op on a cancelled id. -/
inductive RespondOutcome where
  | sent (entries : List FunctionResponse)
  | unknownInvocationError
  | cancelledNoop

/-- Modelled from the spec: `respond(invocationId, payload)` of the Tool-Call
Correlator, which is not under `src/`.  A pending id transitions to `Answered`
and exactly one `toolResponse` entry is emitted for it; an unknown or
already-answered id fails with `UnknownInvocationError` and leaves the state
untouched; a cancelled id is a no-op, not an error (section 4.6). -/
def respond (st : CorrState) (invId : String) (payload : JValue) :
    CorrState × RespondOutcome :=
  match lookupStatus invId st.invocations with
  | some .pending =>
    ({ invocations := markAnswered invId st.invocations },
     .sent [{ id := invId, response := payload }])
  | some .answered => (st, .unknownInvocationError)
  | some .cancelled => (st, .cancelledNoop)
  | none => (st, .unknownInvocationError)

/-! ## The Message Codec for Configuration (spec-modelled) -/

/-- The response modality enumeration of the spec's Configuration (section 3). -/
inductive Modality where
  | text
  | audio
  | mixed
deriving DecidableEq

/-- A capability descriptor of the spec's Configuration tools list
(section 3): builtin search, code execution, or a user-declared function
signature with a name and a parameter schema. -/
inductive ToolDescriptor where
  | builtinSearch
  | codeExecution
  | declaredFunction (name : String) (parameterSchema : List (String × String))
deriving DecidableEq

/-- Modelled from the spec: the immutable Configuration value object of
section 3 (the Message Codec and its Configuration type are not under
`src/`). -/
structure Configuration where
  model : String
  responseModalities : Modality
  speechConfig : String
  maxOutputTokens : Nat
  systemInstruction : String
  tools : List ToolDescriptor
deriving DecidableEq

/-- Encodes a modality as its wire string. -/
def encodeModality : Modality → String
  | .text => "text"
  | .audio => "audio"
  | .mixed => "mixed"

/-- Decodes a modality wire string, validating the enumeration. -/
def decodeModality (s : String) : Option Modality :=
  if s = "text" then some .text
  else if s = "audio" then some .audio
  else if s = "mixed" then some .mixed
  else none

/-- Encodes one tool descriptor into its JSON form. -/
def encodeTool : ToolDescriptor → JValue
  | .builtinSearch => .obj [("googleSearch", .obj [])]
  | .codeExecution => .obj [("codeExecution", .obj [])]
  | .declaredFunction name schema =>
    .obj [("functionDeclaration",
      .obj [("name", .str name),
            ("parameters", .obj (schema.map (fun p => (p.1, JValue.str p.2))))])]

/-- Decodes one tool descriptor, validating its shape. -/
def decodeTool : JValue → Option ToolDescriptor
  | .obj [("googleSearch", .obj [])] => some .builtinSearch
  | .obj [("codeExecution", .obj [])] => some .codeExecution
  | .obj [("functionDeclaration",
      .obj [("name", .str name), ("parameters", .obj schema)])] =>
    (schema.mapM (fun (p : String × JValue) =>
      match p.2 with
      | .str s => some (p.1, s)
      | _ => (none : Option (String × String)))).map
        (fun ps => ToolDescriptor.declaredFunction name ps)
  | _ => none

/-- Modelled from the spec: `encode(Setup(Configuration))` of the Message
Codec (section 4.2), producing the JSON `setup` frame of section 6. -/
def encodeSetup (c : Configuration) : JValue :=
  .obj [("setup", .obj
    [("model", .str c.model),
     ("responseModalities", .str (encodeModality c.responseModalities)),
     ("speechConfig", .str c.speechConfig),
     ("maxOutputTokens", .num c.maxOutputTokens),
     ("systemInstruction", .str c.systemInstruction),
     ("tools", .arr (c.tools.map encodeTool))])]

/-- Modelled from the spec: `decode` of the Message Codec applied to a `setup`
frame, validating the discriminant tag and required fields (section 4.2);
numeric fields are integers and a negative token bound is rejected. -/
def decodeSetup (v : JValue) : Option Configuration :=
  match v with
  | .obj [("setup", .obj
      [("model", .str model),
       ("responseModalities", .str rm),
       ("speechConfig", .str speech),
       ("maxOutputTokens", .num tokens),
       ("systemInstruction", .str instrText),
       ("tools", .arr toolVals)])] =>
    match decodeModality rm, toolVals.mapM decodeTool with
    | some modality, some tools =>
      if 0 ≤ tokens then
        some { model := model, responseModalities := modality, speechConfig := speech,
               maxOutputTokens := tokens.toNat, systemInstruction := instrText,
               tools := tools }
      else none
    | _, _ => none
  | _ => none

/-! ## Predicates and concrete scenario values used by the claims -/

/-- The client operation performed by an action, when it is one. -/
def coreOp : CompAction → Option ClientOp
  | .emit e => some e.op
  | _ => none

/-- True when the action supplies a configuration to the core. -/
def CompAction.isSetConfig : CompAction → Bool
  | .emit e =>
    match e.op with
    | .setConfig _ => true
    | _ => false
  | _ => false

/-- The public consumer surface of the core: subscribe/unsubscribe on the
`toolcall` channel, the send operations, and supplying the configuration;
direct access to internal client fields is outside it. -/
def ClientOp.allowedSurface : ClientOp → Bool
  | .setConfig _ => true
  | .subscribe channel => channel == "toolcall"
  | .unsubscribe channel => channel == "toolcall"
  | .send _ _ => true
  | .sendToolResponse _ => true
  | .readInternalField _ => false
  | .mutateInternalField _ => false

/-- True when the action either stays on the public core surface or does not
touch the core at all (local state, file system). -/
def CompAction.allowed : CompAction → Bool
  | .emit e => e.op.allowedSurface
  | _ => true

/-- True when the action is a (possibly scheduled) `clientContent` send. -/
def CompAction.isClientSend : CompAction → Bool
  | .emit e =>
    match e.op with
    | .send _ _ => true
    | _ => false
  | _ => false

/-- True when the action emits a `toolResponse` frame containing an entry for
the given invocation id. -/
def emitsResponseEntryFor (invId : String) : CompAction → Bool
  | .emit e =>
    match e.op with
    | .sendToolResponse frame => frame.functionResponses.any (fun r => r.id == invId)
    | _ => false
  | _ => false

/-- The function names the Memento component declares. -/
def mementoDeclaredNames : List String :=
  [renderHtmlDeclaration.name, lsDeclaration.name,
   writeToDeclaration.name, readTxtFileDeclaration.name]

/-- The function names the GeminiMatrix component declares. -/
def matrixDeclaredNames : List String :=
  [getDataBlockDecl.name, setDataBlockDecl.name, getStyleBlockDecl.name,
   setStylesBlockDecl.name, geminiAsAToolDecl.name]

/-- A concrete file-system environment for closed evaluations. -/
def fsEnv0 : FsEnv := { lsResult := .obj [], readTxt := fun _ => "" }

/-- The spec scenario batch: one invocation with id `a` and name `f`. -/
def toolCallA : ToolCall :=
  { functionCalls := [{ id := "a", name := "f", args := .obj [] }] }

/-- The spec scenario payload standing for the object with a `result` field
holding 42. -/
def result42 : JValue := .obj [("result", .num 42)]

/-- A batch mixing a matched invocation (`render_html`, id `a`) with an
unmatched one (name `zzz`, id `b`). -/
def toolCallMixed : ToolCall :=
  { functionCalls :=
      [{ id := "a", name := "render_html", args := .obj [("htmlText", .str "x")] },
       { id := "b", name := "zzz", args := .obj [] }] }

/-! ## Shared helper lemmas -/

/-- A `flatMap` over a list satisfies `all p` when every piece does. -/
theorem all_flatMap_of_all {α β : Type} {l : List α} {f : α → List β} {p : β → Bool}
    (h : ∀ a, ((f a).all p) = true) : ((l.flatMap f).all p) = true := by
  induction l with
  | nil => rfl
  | cons a l ih => simp [List.flatMap_cons, List.all_append, h a, ih]

/-- Every action of a Memento dispatch branch is on the allowed core surface. -/
theorem mementoDispatch_all_allowed (env : FsEnv) (toolCall : ToolCall) (fc : FunctionCall) :
    ((mementoDispatch env toolCall fc).all CompAction.allowed) = true := by
  unfold mementoDispatch
  split_ifs <;> rfl

/-- No action of a Memento dispatch branch supplies a configuration. -/
theorem mementoDispatch_no_setConfig (env : FsEnv) (toolCall : ToolCall) (fc : FunctionCall) :
    ((mementoDispatch env toolCall fc).all (fun a => !a.isSetConfig)) = true := by
  unfold mementoDispatch
  split_ifs <;> rfl

/-- Every action of a GeminiMatrix dispatch branch is on the allowed core
surface. -/
theorem matrixDispatch_all_allowed (env : MatrixEnv) (data : List (List String))
    (cellStyles : List (List JValue)) (toolCall : ToolCall) (fc : FunctionCall) :
    ((matrixDispatch env data cellStyles toolCall fc).all CompAction.allowed) = true := by
  unfold matrixDispatch
  split_ifs <;> (try rfl) <;> (repeat' split) <;> rfl

/-- No action of a GeminiMatrix dispatch branch supplies a configuration. -/
theorem matrixDispatch_no_setConfig (env : MatrixEnv) (data : List (List String))
    (cellStyles : List (List JValue)) (toolCall : ToolCall) (fc : FunctionCall) :
    ((matrixDispatch env data cellStyles toolCall fc).all (fun a => !a.isSetConfig)) = true := by
  unfold matrixDispatch
  split_ifs <;> (try rfl) <;> (repeat' split) <;> rfl

/-! ## Claim C2 -/

/-- Claim C2: on the scenario batch holding exactly the invocation with id `a`,
responding once with the payload carrying `result = 42` issues exactly one
outbound `toolResponse` frame (the helper schedules a single
`client.sendToolResponse` call), and its function-response list is exactly the
one entry pairing id `a` with that payload. -/
theorem single_invocation_single_response_frame :
    sendToolResponse toolCallA result42
      = .timer 200 (.sendToolResponse
          { functionResponses := [{ id := "a", response := result42 }] }) := rfl

/-! ## Claim C3 -/

/-- Claim C3: every outbound send issued by the `sendToolResponse` and
`sendUserMessage` helpers is scheduled through a timer rather than executed
synchronously in the issuing call, and the delay value does not affect which
client operation (hence which frame and contents) is sent. -/
theorem outbound_sends_buffered_via_timer :
    (∀ toolCall response,
        sendToolResponse toolCall response
          = .timer 200 (.sendToolResponse (toolResponseFrame toolCall response))
        ∧ (sendToolResponse toolCall response).isTimer = true)
    ∧ (∀ delay delay2 toolCall response,
        (sendToolResponseDelayed delay toolCall response).op
          = (sendToolResponseDelayed delay2 toolCall response).op)
    ∧ (∀ text,
        sendUserMessage text = .timer 200 (.send [{ text := text }] true)
        ∧ (sendUserMessage text).isTimer = true)
    ∧ (∀ delay delay2 text,
        (sendUserMessageDelayed delay text).op = (sendUserMessageDelayed delay2 text).op) :=
  ⟨fun _ _ => ⟨rfl, rfl⟩, fun _ _ _ _ => rfl, fun _ => ⟨rfl, rfl⟩, fun _ _ _ => rfl⟩

/-! ## Claim C4 -/

/-- Claim C4: every call of the user-message helper with text `t` issues
exactly one outbound `clientContent` send, carrying exactly one content part
whose text equals `t` and closing the user turn; and each cell-edit submission
issues exactly one such user-message send, with the change-notice text. -/
theorem user_text_single_clientContent :
    (∀ text : String,
        sendUserMessage text = .timer 200 (.send [{ text := text }] true))
    ∧ (∀ rowIndex colIndex newValue,
        (matrixCellSubmit rowIndex colIndex newValue).filter CompAction.isClientSend
          = [.emit (sendUserMessage (changedCellMsg rowIndex colIndex newValue))]) :=
  ⟨fun _ => rfl, fun _ _ _ => rfl⟩

/-! ## Claim C5 -/

/-- Claim C5: for each component session the configuration is supplied exactly
once, at component mount, before the tool-call subscription (hence before any
tool interaction), and no later action of either component (tool-call
handling, cell submission, re-subscription, unmount) ever supplies a
configuration again.  The first and fourth conjuncts pin the exact core
interactions at mount: one `setConfig` with the component's configuration,
followed by the `toolcall` subscription. -/
theorem config_supplied_once_at_mount :
    mementoMountActions.filterMap coreOp
      = [.setConfig mementoConfig, .subscribe "toolcall"]
    ∧ (∀ env toolCall,
        ((mementoOnToolCall env toolCall).all (fun a => !a.isSetConfig)) = true)
    ∧ (mementoUnmountActions.all (fun a => !a.isSetConfig)) = true
    ∧ matrixMountActions.filterMap coreOp
      = [.setConfig matrixConfig, .subscribe "toolcall"]
    ∧ (∀ env data cellStyles toolCall,
        ((matrixOnToolCall env data cellStyles toolCall).all (fun a => !a.isSetConfig)) = true)
    ∧ (∀ rowIndex colIndex newValue,
        ((matrixCellSubmit rowIndex colIndex newValue).all (fun a => !a.isSetConfig)) = true)
    ∧ (matrixResubscribeActions.all (fun a => !a.isSetConfig)) = true
    ∧ (matrixUnmountActions.all (fun a => !a.isSetConfig)) = true := by
  refine ⟨rfl, ?_, rfl, rfl, ?_, ?_, rfl, rfl⟩
  · intro env toolCall
    exact all_flatMap_of_all (fun fc => mementoDispatch_no_setConfig env toolCall fc)
  · intro env data cellStyles toolCall
    exact all_flatMap_of_all (fun fc => matrixDispatch_no_setConfig env data cellStyles toolCall fc)
  · intro rowIndex colIndex newValue
    rfl

/-! ## Claim C6 -/

/-- Claim C6: the two UI components interact with the session core only
through the subscribe/unsubscribe surface on the `toolcall` channel, the
public send operations and the configuration supplied at session start; no
component action reads or mutates an internal client field, and no action
outside mount supplies a configuration. -/
theorem components_touch_only_public_surface :
    (mementoMountActions.all CompAction.allowed) = true
    ∧ (mementoUnmountActions.all CompAction.allowed) = true
    ∧ (∀ env toolCall,
        ((mementoOnToolCall env toolCall).all CompAction.allowed) = true
        ∧ ((mementoOnToolCall env toolCall).all (fun a => !a.isSetConfig)) = true)
    ∧ (matrixMountActions.all CompAction.allowed) = true
    ∧ (matrixResubscribeActions.all CompAction.allowed) = true
    ∧ (matrixUnmountActions.all CompAction.allowed) = true
    ∧ (∀ env data cellStyles toolCall,
        ((matrixOnToolCall env data cellStyles toolCall).all CompAction.allowed) = true
        ∧ ((matrixOnToolCall env data cellStyles toolCall).all (fun a => !a.isSetConfig)) = true)
    ∧ (∀ rowIndex colIndex newValue,
        ((matrixCellSubmit rowIndex colIndex newValue).all CompAction.allowed) = true
        ∧ ((matrixCellSubmit rowIndex colIndex newValue).all (fun a => !a.isSetConfig)) = true) := by
  refine ⟨rfl, rfl, ?_, rfl, rfl, rfl, ?_, ?_⟩
  · intro env toolCall
    exact ⟨all_flatMap_of_all (fun fc => mementoDispatch_all_allowed env toolCall fc),
           all_flatMap_of_all (fun fc => mementoDispatch_no_setConfig env toolCall fc)⟩
  · intro env data cellStyles toolCall
    exact ⟨all_flatMap_of_all (fun fc => matrixDispatch_all_allowed env data cellStyles toolCall fc),
           all_flatMap_of_all (fun fc => matrixDispatch_no_setConfig env data cellStyles toolCall fc)⟩
  · intro rowIndex colIndex newValue
    exact ⟨rfl, rfl⟩

/-! ## Claim C8 -/

/-- Claim C8 (counterexample): the claim as stated is false.  On the concrete
batch `toolCallMixed`, the invocation with id `b` has the undeclared name
`zzz`, yet the Memento handler does emit a `toolResponse` entry for id `b`:
the matched `render_html` invocation triggers the shared helper, which maps
the single response payload over every id of the batch, the unmatched one
included. -/
theorem unmatched_invocation_gets_response_entry :
    (mementoDeclaredNames.contains "zzz") = false
    ∧ ((mementoOnToolCall fsEnv0 toolCallMixed).any (emitsResponseEntryFor "b")) = true :=
  ⟨rfl, rfl⟩

/-- Claim C8 (amended): processing an invocation whose name matches none of
the component's declared function names produces no action at all — no
toolResponse for it and no state change — and a batch consisting solely of
unmatched invocations produces no action whatsoever; however, when an
unmatched invocation shares a batch with a matched one, the batch-wide
response emitted for the matched call also carries an entry for the unmatched
id (see the counterexample). -/
theorem unmatched_invocation_dispatch_empty :
    (∀ env toolCall fc, fc.name ∉ mementoDeclaredNames →
        mementoDispatch env toolCall fc = [])
    ∧ (∀ env toolCall,
        (∀ fc ∈ toolCall.functionCalls, fc.name ∉ mementoDeclaredNames) →
        mementoOnToolCall env toolCall = [])
    ∧ (∀ env data cellStyles toolCall fc, fc.name ∉ matrixDeclaredNames →
        matrixDispatch env data cellStyles toolCall fc = [])
    ∧ (∀ env data cellStyles toolCall,
        (∀ fc ∈ toolCall.functionCalls, fc.name ∉ matrixDeclaredNames) →
        matrixOnToolCall env data cellStyles toolCall = []) := by
  have hm : ∀ env toolCall fc, fc.name ∉ mementoDeclaredNames →
      mementoDispatch env toolCall fc = [] := by
    intro env toolCall fc h
    simp only [mementoDeclaredNames, List.mem_cons, List.not_mem_nil, or_false,
      not_or] at h
    obtain ⟨h1, h2, h3, h4⟩ := h
    unfold mementoDispatch
    rw [if_neg h1, if_neg h2, if_neg h3, if_neg h4]
  have hx : ∀ env data cellStyles toolCall fc, fc.name ∉ matrixDeclaredNames →
      matrixDispatch env data cellStyles toolCall fc = [] := by
    intro env data cellStyles toolCall fc h
    simp only [matrixDeclaredNames, List.mem_cons, List.not_mem_nil, or_false,
      not_or] at h
    obtain ⟨h1, h2, h3, h4, h5⟩ := h
    unfold matrixDispatch
    rw [if_neg h5, if_neg h2, if_neg h4, if_neg h1, if_neg h3]
  refine ⟨hm, ?_, hx, ?_⟩
  · intro env toolCall h
    unfold mementoOnToolCall
    rw [List.flatMap_eq_nil_iff]
    intro fc hfc
    exact hm env toolCall fc (h fc hfc)
  · intro env data cellStyles toolCall h
    unfold matrixOnToolCall
    rw [List.flatMap_eq_nil_iff]
    intro fc hfc
    exact hx env data cellStyles toolCall fc (h fc hfc)

/-- Witness for the amended C8 theorem at a concrete input: the name `zzz` is
not declared, and the dispatch of that invocation inside `toolCallMixed`
produces no action. -/
theorem unmatched_invocation_dispatch_empty_witness :
    "zzz" ∉ mementoDeclaredNames
    ∧ mementoDispatch fsEnv0 toolCallMixed
        { id := "b", name := "zzz", args := .obj [] } = [] :=
  ⟨by decide,
   unmatched_invocation_dispatch_empty.1 fsEnv0 toolCallMixed
     { id := "b", name := "zzz", args := .obj [] } (by decide)⟩

/-! ## Claim C1 -/

/-- Delivering a batch marks every id of the batch pending, whatever the
previous map held behind it. -/
theorem lookupStatus_append_pending (fcs : List FunctionCall)
    (rest : List (String × InvStatus)) (invId : String)
    (h : invId ∈ fcs.map (fun fc => fc.id)) :
    lookupStatus invId ((fcs.map (fun fc => (fc.id, InvStatus.pending))) ++ rest)
      = some .pending := by
  induction fcs with
  | nil => simp at h
  | cons fc fcs ih =>
    simp only [List.map_cons, List.cons_append, lookupStatus]
    by_cases hc : fc.id = invId
    · simp [hc]
    · have hmem : invId ∈ fcs.map (fun fc => fc.id) := by
        rcases List.mem_cons.mp h with h | h
        · exact absurd h.symm hc
        · exact h
      simp [hc, ih hmem]

/-- Unfolding equation of `lookupStatus` on a cons cell. -/
theorem lookupStatus_cons (invId k : String) (s : InvStatus) (l : List (String × InvStatus)) :
    lookupStatus invId ((k, s) :: l) = if k = invId then some s else lookupStatus invId l := rfl

/-- Marking an id answered turns its looked-up status into `answered` and
nothing else. -/
theorem lookupStatus_markAnswered (invId : String) (l : List (String × InvStatus)) :
    lookupStatus invId (markAnswered invId l)
      = (lookupStatus invId l).map (fun _ => InvStatus.answered) := by
  induction l with
  | nil => rfl
  | cons p l ih =>
    obtain ⟨k, s⟩ := p
    have hmark : markAnswered invId ((k, s) :: l)
        = (if k = invId then (k, InvStatus.answered) else (k, s)) :: markAnswered invId l := rfl
    by_cases hc : k = invId
    · rw [hmark, if_pos hc, lookupStatus_cons, lookupStatus_cons, if_pos hc, if_pos hc]
      rfl
    · rw [hmark, if_neg hc, lookupStatus_cons, lookupStatus_cons, if_neg hc, if_neg hc, ih]

/-- Claim C1: for every delivered `toolCall` batch, each invocation id of the
batch is marked pending; one matching `respond` call emits exactly one
`toolResponse` entry for that id and transitions it to answered; a second
`respond` on the same id yields `UnknownInvocationError` and leaves the
correlator state unchanged. -/
theorem toolcall_id_answered_exactly_once
    (st : CorrState) (toolCall : ToolCall) (invId : String) (payload payload2 : JValue)
    (hmem : invId ∈ toolCall.functionCalls.map (fun fc => fc.id)) :
    lookupStatus invId (deliverToolCall st toolCall).invocations = some .pending
    ∧ (respond (deliverToolCall st toolCall) invId payload).2
        = .sent [{ id := invId, response := payload }]
    ∧ lookupStatus invId
        ((respond (deliverToolCall st toolCall) invId payload).1).invocations
        = some .answered
    ∧ (respond ((respond (deliverToolCall st toolCall) invId payload).1) invId payload2).2
        = .unknownInvocationError
    ∧ (respond ((respond (deliverToolCall st toolCall) invId payload).1) invId payload2).1
        = (respond (deliverToolCall st toolCall) invId payload).1 := by
  have h1 : lookupStatus invId (deliverToolCall st toolCall).invocations = some .pending := by
    simpa [deliverToolCall] using
      lookupStatus_append_pending toolCall.functionCalls st.invocations invId hmem
  have h2 : respond (deliverToolCall st toolCall) invId payload
      = ({ invocations := markAnswered invId (deliverToolCall st toolCall).invocations },
         .sent [{ id := invId, response := payload }]) := by
    simp [respond, h1]
  have h3 : lookupStatus invId (markAnswered invId (deliverToolCall st toolCall).invocations)
      = some .answered := by
    rw [lookupStatus_markAnswered, h1]
    rfl
  have h4 : respond
        ({ invocations := markAnswered invId (deliverToolCall st toolCall).invocations } : CorrState)
        invId payload2
      = ({ invocations := markAnswered invId (deliverToolCall st toolCall).invocations },
         .unknownInvocationError) := by
    simp [respond, h3]
  refine ⟨h1, by rw [h2], by rw [h2]; exact h3, by rw [h2, h4], by rw [h2, h4]⟩

/-- Witness for C1 at a concrete input: the empty correlator receives the
scenario batch holding id `a`; the conclusion is obtained by applying the
theorem there. -/
theorem toolcall_id_answered_exactly_once_witness :
    ("a" ∈ toolCallA.functionCalls.map (fun fc => fc.id))
    ∧ (lookupStatus "a" (deliverToolCall ⟨[]⟩ toolCallA).invocations = some .pending
       ∧ (respond (deliverToolCall ⟨[]⟩ toolCallA) "a" result42).2
           = .sent [{ id := "a", response := result42 }]
       ∧ lookupStatus "a"
           ((respond (deliverToolCall ⟨[]⟩ toolCallA) "a" result42).1).invocations
           = some .answered
       ∧ (respond ((respond (deliverToolCall ⟨[]⟩ toolCallA) "a" result42).1) "a" .null).2
           = .unknownInvocationError
       ∧ (respond ((respond (deliverToolCall ⟨[]⟩ toolCallA) "a" result42).1) "a" .null).1
           = (respond (deliverToolCall ⟨[]⟩ toolCallA) "a" result42).1) :=
  ⟨by decide,
   toolcall_id_answered_exactly_once ⟨[]⟩ toolCallA "a" result42 .null (by decide)⟩

/-! ## Claim C7 -/

/-- The modality codec round-trips. -/
theorem decodeModality_encodeModality (m : Modality) :
    decodeModality (encodeModality m) = some m := by
  cases m <;> rfl

/-- A parameter-schema entry list round-trips through its JSON encoding. -/
theorem schema_mapM_roundtrip (schema : List (String × String)) :
    ((schema.map (fun p => (p.1, JValue.str p.2))).mapM
        (fun (p : String × JValue) =>
          match p.2 with
          | .str s => some (p.1, s)
          | _ => (none : Option (String × String)))) = some schema := by
  induction schema with
  | nil => rfl
  | cons p rest ih =>
    simp only [List.map_cons, List.mapM_cons, ih]
    rfl

/-- One tool descriptor round-trips through the codec. -/
theorem decodeTool_encodeTool (t : ToolDescriptor) :
    decodeTool (encodeTool t) = some t := by
  cases t with
  | builtinSearch => rfl
  | codeExecution => rfl
  | declaredFunction name schema =>
    simp only [encodeTool, decodeTool]
    rw [schema_mapM_roundtrip]
    rfl

/-- Claim C7: encoding any Configuration into a `setup` frame and decoding
that frame reproduces the original Configuration exactly. -/
theorem configuration_setup_roundtrip (c : Configuration) :
    decodeSetup (encodeSetup c) = some c := by
  obtain ⟨model, rm, speech, tokens, instrText, tools⟩ := c
  have htools : (tools.map encodeTool).mapM decodeTool = some tools := by
    induction tools with
    | nil => rfl
    | cons t rest ih =>
      simp only [List.map_cons, List.mapM_cons, decodeTool_encodeTool, ih]
      rfl
  simp only [encodeSetup, decodeSetup]
  rw [decodeModality_encodeModality, htools]
  simp

/-! ## Claim C9 -/

/-- Unfolding equation of `nonNullishCell` on a present cell. -/
theorem nonNullishCell_some {α : Type} (isNullish : α → Bool) (x : α) :
    nonNullishCell isNullish (some x) = !isNullish x := rfl

/-- Writing a row block preserves the row length. -/
theorem length_writeRowFrom {α : Type} (isNullish : α → Bool) (vrow row : List α) (c : Nat) :
    (writeRowFrom isNullish row c vrow).length = row.length := by
  induction vrow generalizing row c with
  | nil => rfl
  | cons x xs ih =>
    rw [writeRowFrom, ih]
    split <;> simp [List.length_set]

/-- Cells that the guarded window does not overwrite are untouched: outside
the window, beyond the row, or where the value cell fails the guard. -/
theorem getElem?_writeRowFrom_miss {α : Type} (isNullish : α → Bool) (vrow : List α) :
    ∀ (row : List α) (c j : Nat),
    ¬(c ≤ j ∧ j < c + vrow.length ∧ j < row.length
        ∧ nonNullishCell isNullish vrow[j - c]? = true) →
    (writeRowFrom isNullish row c vrow)[j]? = row[j]? := by
  induction vrow with
  | nil =>
    intro row c j h
    rfl
  | cons x xs ih =>
    intro row c j h
    rw [writeRowFrom]
    have hlen : (if isNullish x then row else row.set c x).length = row.length := by
      split <;> simp [List.length_set]
    have hih : ¬(c + 1 ≤ j ∧ j < c + 1 + xs.length
        ∧ j < (if isNullish x then row else row.set c x).length
        ∧ nonNullishCell isNullish xs[j - (c + 1)]? = true) := by
      rintro ⟨k1, k2, k3, k4⟩
      rw [hlen] at k3
      refine h ⟨by omega, by simp only [List.length_cons]; omega, k3, ?_⟩
      rw [show j - c = (j - (c + 1)) + 1 from by omega, List.getElem?_cons_succ]
      exact k4
    rw [ih _ _ _ hih]
    by_cases hx : isNullish x = true
    · rw [if_pos hx]
    · rw [if_neg hx]
      have hfalse : isNullish x = false := by
        revert hx
        cases isNullish x <;> simp
      by_cases hcj : c = j
      · have hge : row.length ≤ j := by
          by_contra hcon
          refine h ⟨by omega, by simp only [List.length_cons]; omega, by omega, ?_⟩
          rw [show j - c = 0 from by omega, List.getElem?_cons_zero,
            nonNullishCell_some, hfalse]
          rfl
        rw [List.getElem?_eq_none (by simp only [List.length_set]; omega),
          List.getElem?_eq_none (by omega)]
      · rw [List.getElem?_set_ne hcj]

/-- Cells of the guarded window whose value cell passes the guard are
overwritten with it. -/
theorem getElem?_writeRowFrom_hit {α : Type} (isNullish : α → Bool) (vrow : List α) :
    ∀ (row : List α) (c j : Nat),
    c ≤ j → j < c + vrow.length → j < row.length →
    nonNullishCell isNullish vrow[j - c]? = true →
    (writeRowFrom isNullish row c vrow)[j]? = vrow[j - c]? := by
  induction vrow with
  | nil =>
    intro row c j h1 h2 h3 h4
    simp only [List.length_nil] at h2
    omega
  | cons x xs ih =>
    intro row c j h1 h2 h3 h4
    rw [writeRowFrom]
    by_cases hcj : j = c
    · subst hcj
      rw [show j - j = 0 from by omega, List.getElem?_cons_zero] at h4 ⊢
      rw [nonNullishCell_some] at h4
      have hfalse : isNullish x = false := by
        revert h4
        cases isNullish x <;> simp
      rw [if_neg (by rw [hfalse]; exact Bool.false_ne_true),
        getElem?_writeRowFrom_miss isNullish xs (row.set j x) (j + 1) j
          (fun hcond => absurd hcond.1 (by omega))]
      exact List.getElem?_set_self h3
    · have h4x : nonNullishCell isNullish xs[j - (c + 1)]? = true := by
        rw [show j - c = (j - (c + 1)) + 1 from by omega, List.getElem?_cons_succ] at h4
        exact h4
      have hstep : (if isNullish x then row else row.set c x).length = row.length := by
        split <;> simp [List.length_set]
      rw [ih _ (c + 1) j (by omega)
        (by simp only [List.length_cons] at h2; omega) (by rw [hstep]; omega) h4x]
      rw [show j - c = (j - (c + 1)) + 1 from by omega, List.getElem?_cons_succ]

/-- Cell-level characterization of the inner column loop: a cell of the
written window is overwritten exactly when the corresponding value cell is
present and non-nullish (the `!= undefined` guard); every other cell of the
row is untouched. -/
theorem getElem?_writeRowFrom {α : Type} (isNullish : α → Bool) (vrow row : List α) (c j : Nat) :
    (writeRowFrom isNullish row c vrow)[j]? =
      if c ≤ j ∧ j < c + vrow.length ∧ j < row.length
          ∧ nonNullishCell isNullish vrow[j - c]? = true
      then vrow[j - c]? else row[j]? := by
  by_cases h : c ≤ j ∧ j < c + vrow.length ∧ j < row.length
      ∧ nonNullishCell isNullish vrow[j - c]? = true
  · rw [if_pos h]
    exact getElem?_writeRowFrom_hit isNullish vrow row c j h.1 h.2.1 h.2.2.1 h.2.2.2
  · rw [if_neg h]
    exact getElem?_writeRowFrom_miss isNullish vrow row c j h

/-- Writing a block preserves the number of rows. -/
theorem length_writeBlockFrom {α : Type} (isNullish : α → Bool) (v m : List (List α)) (r c : Nat) :
    (writeBlockFrom isNullish m r c v).length = m.length := by
  induction v generalizing m r with
  | nil => rfl
  | cons vrow vrest ih =>
    rw [writeBlockFrom, ih]
    cases h : m[r]? <;> simp [List.length_set]

/-- Rows strictly before the written block are untouched. -/
theorem getElem?_writeBlockFrom_lt {α : Type} (isNullish : α → Bool) (v m : List (List α))
    (r c i : Nat) (h : i < r) :
    (writeBlockFrom isNullish m r c v)[i]? = m[i]? := by
  induction v generalizing m r with
  | nil => rfl
  | cons vrow vrest ih =>
    rw [writeBlockFrom, ih _ _ (by omega)]
    cases hm : m[r]? with
    | none => rfl
    | some row => rw [List.getElem?_set_ne (by omega)]

/-- Rows at or after the block start: the row is rewritten through
`writeRowFrom` exactly when both the value block and the matrix still have a
row there. -/
theorem getElem?_writeBlockFrom_ge {α : Type} (isNullish : α → Bool) (v m : List (List α))
    (r c i : Nat) (h : r ≤ i) :
    (writeBlockFrom isNullish m r c v)[i]? =
      match v[i - r]?, m[i]? with
      | some vrow, some row => some (writeRowFrom isNullish row c vrow)
      | _, _ => m[i]? := by
  induction v generalizing m r with
  | nil =>
    rw [writeBlockFrom]
    rcases hm : m[i]? with _ | row <;> simp
  | cons vrow vrest ih =>
    rw [writeBlockFrom]
    by_cases hir : i = r
    · subst hir
      rw [getElem?_writeBlockFrom_lt _ _ _ _ _ _ (by omega)]
      have hz : i - i = 0 := by omega
      rw [hz]
      cases hm : m[i]? with
      | none => simp [hm]
      | some row =>
        have hlen : i < m.length := by
          by_contra hc
          rw [List.getElem?_eq_none (by omega)] at hm
          exact Option.noConfusion hm
        show (m.set i (writeRowFrom isNullish row c vrow))[i]? = _
        rw [List.getElem?_set_self hlen]
        simp
    · have hri : r + 1 ≤ i := by omega
      rw [ih _ _ hri]
      have hsub : i - r = (i - (r + 1)) + 1 := by omega
      rw [hsub, List.getElem?_cons_succ]
      cases hm : m[r]? with
      | none => rfl
      | some row => rw [List.getElem?_set_ne (by omega)]

/-- Claim C9 (counterexample): the claim as stated is false.  A 1 by 1 value
block holding JSON `null` is written in-bounds onto the 1 by 1 matrix holding
the string `a`; the source's `!= undefined` guard (false on `null` under
JavaScript loose inequality) skips the cell, so the result keeps `a` on the
block instead of equalling the value matrix there. -/
theorem setMatrixBlock_keeps_nullish_cell :
    getCell (setMatrixBlock JValue.isNullish [[JValue.str "a"]] 0 0 [[JValue.null]]) 0 0
      = getCell ([[JValue.str "a"]] : List (List JValue)) 0 0
    ∧ getCell (setMatrixBlock JValue.isNullish [[JValue.str "a"]] 0 0 [[JValue.null]]) 0 0
      ≠ getCell ([[JValue.null]] : List (List JValue)) 0 0 :=
  ⟨rfl, fun h => JValue.noConfusion (Option.some.inj h)⟩

/-- Claim C9 (amended): on an `n` by `n` matrix, with non-negative start
indices and a `rows` by `cols` value block lying within bounds,
`setMatrixBlock` keeps the row count and equals the original matrix at every
cell outside the target rectangle; on the rectangle it equals the value block
at every cell holding a non-nullish value and keeps the original cell where
the value cell is nullish (the source's `!= undefined` guard).  For value
matrices free of nullish cells this is exactly the original claim: the result
equals the value block on the whole rectangle.  The source returns a fresh
clone; in the pure embedding the input matrix is unchanged by construction. -/
theorem setMatrixBlock_guarded_block_frames_rest {α : Type} (isNullish : α → Bool)
    (m v : List (List α)) (n rows cols : Nat) (startRow startCol : Int)
    (hm : m.length = n) (hmr : ∀ row ∈ m, row.length = n)
    (hv : v.length = rows) (hvr : ∀ vr ∈ v, vr.length = cols)
    (hsr : 0 ≤ startRow) (hsc : 0 ≤ startCol)
    (hrb : startRow.toNat + rows ≤ n) (hcb : startCol.toNat + cols ≤ n) :
    (setMatrixBlock isNullish m startRow startCol v).length = n
    ∧ (∀ i j : Nat, i < n → j < n →
        getCell (setMatrixBlock isNullish m startRow startCol v) i j =
          if startRow.toNat ≤ i ∧ i < startRow.toNat + rows
              ∧ startCol.toNat ≤ j ∧ j < startCol.toNat + cols
              ∧ nonNullishCell isNullish
                  (getCell v (i - startRow.toNat) (j - startCol.toNat)) = true
          then getCell v (i - startRow.toNat) (j - startCol.toNat)
          else getCell m i j)
    ∧ ((∀ vr ∈ v, ∀ x ∈ vr, isNullish x = false) →
        ∀ i j : Nat, i < n → j < n →
          getCell (setMatrixBlock isNullish m startRow startCol v) i j =
            if startRow.toNat ≤ i ∧ i < startRow.toNat + rows
                ∧ startCol.toNat ≤ j ∧ j < startCol.toNat + cols
            then getCell v (i - startRow.toNat) (j - startCol.toNat)
            else getCell m i j) := by
  have e1 : resolve_index startRow m.length = startRow := if_neg (by omega)
  have e2 : resolve_index startCol m.length = startCol := if_neg (by omega)
  have hdef : setMatrixBlock isNullish m startRow startCol v
      = writeBlockFrom isNullish m startRow.toNat startCol.toNat v := by
    rw [setMatrixBlock, e1, e2]
  have hchar : ∀ i j : Nat, i < n → j < n →
      getCell (setMatrixBlock isNullish m startRow startCol v) i j =
        if startRow.toNat ≤ i ∧ i < startRow.toNat + rows
            ∧ startCol.toNat ≤ j ∧ j < startCol.toNat + cols
            ∧ nonNullishCell isNullish
                (getCell v (i - startRow.toNat) (j - startCol.toNat)) = true
        then getCell v (i - startRow.toNat) (j - startCol.toNat)
        else getCell m i j := by
    intro i j hi hj
    rw [hdef, getCell]
    by_cases hlt : i < startRow.toNat
    · rw [getElem?_writeBlockFrom_lt _ _ _ _ _ _ hlt,
        if_neg (fun h => absurd h.1 (by omega))]
      rfl
    · have hge : startRow.toNat ≤ i := by omega
      rw [getElem?_writeBlockFrom_ge _ _ _ _ _ _ hge]
      by_cases hrow : i < startRow.toNat + rows
      · have hvlt : i - startRow.toNat < v.length := by omega
        have hmlt : i < m.length := by omega
        have hvi : v[i - startRow.toNat]? = some (v.get ⟨i - startRow.toNat, hvlt⟩) :=
          List.getElem?_eq_getElem hvlt
        have hmi : m[i]? = some (m.get ⟨i, hmlt⟩) := List.getElem?_eq_getElem hmlt
        rw [hvi, hmi]
        show (writeRowFrom isNullish (m.get ⟨i, hmlt⟩) startCol.toNat
          (v.get ⟨i - startRow.toNat, hvlt⟩))[j]? = _
        rw [getElem?_writeRowFrom]
        have hrowlen : (m.get ⟨i, hmlt⟩).length = n := hmr _ (List.getElem_mem hmlt)
        have hvlen : (v.get ⟨i - startRow.toNat, hvlt⟩).length = cols :=
          hvr _ (List.getElem_mem hvlt)
        rw [hrowlen, hvlen]
        have hcellv : getCell v (i - startRow.toNat) (j - startCol.toNat)
            = (v.get ⟨i - startRow.toNat, hvlt⟩)[j - startCol.toNat]? := by
          rw [getCell, hvi]
          rfl
        rw [hcellv]
        by_cases hcol : startCol.toNat ≤ j ∧ j < startCol.toNat + cols
        · by_cases hnn : nonNullishCell isNullish
              ((v.get ⟨i - startRow.toNat, hvlt⟩)[j - startCol.toNat]?) = true
          · rw [if_pos ⟨hcol.1, hcol.2, by omega, hnn⟩,
              if_pos ⟨hge, hrow, hcol.1, hcol.2, hnn⟩]
          · rw [if_neg (fun h => hnn h.2.2.2), if_neg (fun h => hnn h.2.2.2.2),
              getCell, hmi]
            rfl
        · rw [if_neg (fun h => hcol ⟨h.1, h.2.1⟩),
            if_neg (fun h => hcol ⟨h.2.2.1, h.2.2.2.1⟩), getCell, hmi]
          rfl
      · have hnone : v[i - startRow.toNat]? = none := by
          rw [List.getElem?_eq_none]
          omega
        rw [hnone, if_neg (fun h => absurd h.2.1 (by omega))]
        cases hmi : m[i]? with
        | none =>
          rw [getCell, hmi]
        | some row =>
          rw [getCell, hmi]
  refine ⟨?_, hchar, ?_⟩
  · rw [hdef, length_writeBlockFrom, hm]
  · intro hfree i j hi hj
    rw [hchar i j hi hj]
    by_cases hblk : startRow.toNat ≤ i ∧ i < startRow.toNat + rows
        ∧ startCol.toNat ≤ j ∧ j < startCol.toNat + cols
    · have hvlt : i - startRow.toNat < v.length := by omega
      have hjlt : j - startCol.toNat < (v.get ⟨i - startRow.toNat, hvlt⟩).length := by
        have hlenv : (v.get ⟨i - startRow.toNat, hvlt⟩).length = cols :=
          hvr _ (List.getElem_mem hvlt)
        omega
      have hcell : getCell v (i - startRow.toNat) (j - startCol.toNat)
          = some ((v.get ⟨i - startRow.toNat, hvlt⟩).get ⟨j - startCol.toNat, hjlt⟩) := by
        rw [getCell, List.getElem?_eq_getElem hvlt]
        show (v.get ⟨i - startRow.toNat, hvlt⟩)[j - startCol.toNat]? = _
        exact List.getElem?_eq_getElem hjlt
      have hfx : isNullish
          ((v.get ⟨i - startRow.toNat, hvlt⟩).get ⟨j - startCol.toNat, hjlt⟩) = false :=
        hfree _ (List.getElem_mem hvlt) _ (List.getElem_mem hjlt)
      have hnn : nonNullishCell isNullish
          (getCell v (i - startRow.toNat) (j - startCol.toNat)) = true := by
        rw [hcell, nonNullishCell_some, hfx]
        rfl
      rw [if_pos ⟨hblk.1, hblk.2.1, hblk.2.2.1, hblk.2.2.2, hnn⟩, if_pos hblk]
    · rw [if_neg (fun h => hblk ⟨h.1, h.2.1, h.2.2.1, h.2.2.2.1⟩), if_neg hblk]

/-- Witness for the amended C9 theorem at a concrete input: a 2 by 2 matrix
receives a 1 by 1 block at the origin under the never-nullish cell test; all
hypotheses hold by computation and the conclusion is the theorem applied
there. -/
theorem setMatrixBlock_guarded_block_frames_rest_witness :
    (([[0, 1], [2, 3]] : List (List Nat)).length = 2
     ∧ (∀ row ∈ ([[0, 1], [2, 3]] : List (List Nat)), row.length = 2)
     ∧ ([[5]] : List (List Nat)).length = 1
     ∧ (∀ vr ∈ ([[5]] : List (List Nat)), vr.length = 1)
     ∧ (0 : Int) ≤ 0 ∧ (0 : Int).toNat + 1 ≤ 2)
    ∧ ((setMatrixBlock (fun _ => false) ([[0, 1], [2, 3]] : List (List Nat)) 0 0 [[5]]).length = 2
       ∧ (∀ i j : Nat, i < 2 → j < 2 →
           getCell (setMatrixBlock (fun _ => false) ([[0, 1], [2, 3]] : List (List Nat)) 0 0 [[5]]) i j =
             if (0 : Int).toNat ≤ i ∧ i < (0 : Int).toNat + 1
                 ∧ (0 : Int).toNat ≤ j ∧ j < (0 : Int).toNat + 1
                 ∧ nonNullishCell (fun _ => false)
                     (getCell ([[5]] : List (List Nat)) (i - (0 : Int).toNat) (j - (0 : Int).toNat)) = true
             then getCell ([[5]] : List (List Nat)) (i - (0 : Int).toNat) (j - (0 : Int).toNat)
             else getCell ([[0, 1], [2, 3]] : List (List Nat)) i j)
       ∧ ((∀ vr ∈ ([[5]] : List (List Nat)), ∀ x ∈ vr, (fun (_ : Nat) => false) x = false) →
           ∀ i j : Nat, i < 2 → j < 2 →
             getCell (setMatrixBlock (fun _ => false) ([[0, 1], [2, 3]] : List (List Nat)) 0 0 [[5]]) i j =
               if (0 : Int).toNat ≤ i ∧ i < (0 : Int).toNat + 1
                   ∧ (0 : Int).toNat ≤ j ∧ j < (0 : Int).toNat + 1
               then getCell ([[5]] : List (List Nat)) (i - (0 : Int).toNat) (j - (0 : Int).toNat)
               else getCell ([[0, 1], [2, 3]] : List (List Nat)) i j)) :=
  ⟨⟨by decide, by decide, by decide, by decide, by decide, by decide⟩,
   setMatrixBlock_guarded_block_frames_rest (fun _ => false) [[0, 1], [2, 3]] [[5]] 2 1 1 0 0
     (by decide) (by decide) (by decide) (by decide) (by decide) (by decide)
     (by decide) (by decide)⟩

/-! ## Claim C10 -/

/-- A `mapM` over `Except` succeeds pointwise when every element does. -/
theorem mapM_eq_ok_of_forall {α β : Type} (l : List α) (f : α → Except Unit β) (g : α → β)
    (h : ∀ x ∈ l, f x = .ok (g x)) : l.mapM f = .ok (l.map g) := by
  induction l with
  | nil => rfl
  | cons a l ih =>
    rw [List.map_cons, List.mapM_cons, h a (List.mem_cons_self a l),
      ih (fun x hx => h x (List.mem_cons_of_mem a hx))]
    rfl

/-- In-bounds characterization of `selectMatrixBlock`: with all four indices
non-negative, ordered and within the square matrix, the selection succeeds and
equals the grid of matrix cells. -/
theorem selectMatrixBlock_ok {α : Type} (m : List (List α)) (n : Nat)
    (startRow startCol endRow endCol : Int)
    (hm : m.length = n) (hmr : ∀ row ∈ m, row.length = n)
    (hsr : 0 ≤ startRow) (hre : startRow ≤ endRow) (hrn : endRow ≤ (n : Int))
    (hsc : 0 ≤ startCol) (hce : startCol ≤ endCol) (hcn : endCol ≤ (n : Int)) :
    selectMatrixBlock m startRow startCol endRow endCol
      = .ok ((List.range (endRow - startRow).toNat).map (fun i =>
          (List.range (endCol - startCol).toNat).map (fun j =>
            getCell m (startRow.toNat + i) (startCol.toNat + j)))) := by
  have e1 : resolve_index startRow m.length = startRow := if_neg (by omega)
  have e2 : resolve_index startCol m.length = startCol := if_neg (by omega)
  have e3 : resolve_index endRow m.length = endRow := if_neg (by omega)
  have e4 : resolve_index endCol m.length = endCol := if_neg (by omega)
  simp only [selectMatrixBlock, e1, e2, e3, e4]
  apply mapM_eq_ok_of_forall
  intro i hi
  rw [List.mem_range] at hi
  have hrowlt : startRow.toNat + i < m.length := by omega
  have hget : getAt m (startRow + i) = some (m.get ⟨startRow.toNat + i, hrowlt⟩) := by
    rw [getAt, if_neg (by omega),
      show (startRow + (i : Int)).toNat = startRow.toNat + i from by omega]
    exact List.getElem?_eq_getElem hrowlt
  rw [hget]
  show Except.ok _ = _
  congr 1
  apply List.map_congr_left
  intro j hj
  rw [List.mem_range] at hj
  rw [getAt, if_neg (by omega),
    show (startCol + (j : Int)).toNat = startCol.toNat + j from by omega,
    getCell, List.getElem?_eq_getElem hrowlt]
  rfl

/-- Claim C10: `resolve_index` returns the index itself when non-negative and
`length + index + 1` when negative; consequently `-1` as an end bound behaves
exactly like the full length (rows, respectively columns, up to and including
the last one), and for in-range non-negative bounds the selected block has
`(endRow - startRow)` rows of `(endCol - startCol)` cells each, cell `(i, j)`
holding matrix cell `(startRow + i, startCol + j)`. -/
theorem resolve_index_selectMatrixBlock_spec (α : Type) :
    (∀ (i : Int) (n : Nat),
        (0 ≤ i → resolve_index i n = i)
        ∧ (i < 0 → resolve_index i n = (n : Int) + i + 1))
    ∧ (∀ (m : List (List α)) (startRow startCol endCol : Int),
        selectMatrixBlock m startRow startCol (-1) endCol
          = selectMatrixBlock m startRow startCol (m.length : Int) endCol)
    ∧ (∀ (m : List (List α)) (startRow startCol endRow : Int),
        selectMatrixBlock m startRow startCol endRow (-1)
          = selectMatrixBlock m startRow startCol endRow (m.length : Int))
    ∧ (∀ (m : List (List α)) (n : Nat) (startRow startCol endRow endCol : Int),
        m.length = n → (∀ row ∈ m, row.length = n) →
        0 ≤ startRow → startRow ≤ endRow → endRow ≤ (n : Int) →
        0 ≤ startCol → startCol ≤ endCol → endCol ≤ (n : Int) →
        ∃ block,
          selectMatrixBlock m startRow startCol endRow endCol = .ok block
          ∧ block.length = (endRow - startRow).toNat
          ∧ (∀ row ∈ block, row.length = (endCol - startCol).toNat)
          ∧ ∀ i j : Nat, i < (endRow - startRow).toNat → j < (endCol - startCol).toNat →
              getCell block i j
                = some (getCell m (startRow.toNat + i) (startCol.toNat + j))) := by
  refine ⟨?_, ?_, ?_, ?_⟩
  · intro i n
    constructor
    · intro h
      exact if_neg (by omega)
    · intro h
      rw [resolve_index, if_pos h]
  · intro m startRow startCol endCol
    have h1 : resolve_index (-1) m.length = (m.length : Int) := by
      rw [resolve_index, if_pos (by omega)]
      omega
    have h2 : resolve_index (m.length : Int) m.length = (m.length : Int) :=
      if_neg (by omega)
    simp only [selectMatrixBlock, h1, h2]
  · intro m startRow startCol endRow
    have h1 : resolve_index (-1) m.length = (m.length : Int) := by
      rw [resolve_index, if_pos (by omega)]
      omega
    have h2 : resolve_index (m.length : Int) m.length = (m.length : Int) :=
      if_neg (by omega)
    simp only [selectMatrixBlock, h1, h2]
  · intro m n startRow startCol endRow endCol hm hmr hsr hre hrn hsc hce hcn
    refine ⟨_, selectMatrixBlock_ok m n startRow startCol endRow endCol
      hm hmr hsr hre hrn hsc hce hcn, ?_, ?_, ?_⟩
    · rw [List.length_map, List.length_range]
    · intro row hrow
      obtain ⟨i, hi, hieq⟩ := List.mem_map.mp hrow
      rw [← hieq, List.length_map, List.length_range]
    · intro i j hi hj
      rw [getCell, List.getElem?_map, List.getElem?_range hi]
      show ((List.range (endCol - startCol).toNat).map
          (fun j => getCell m (startRow.toNat + i) (startCol.toNat + j)))[j]? = _
      rw [List.getElem?_map, List.getElem?_range hj]
      rfl

/-- Witness for C10 at concrete inputs: both `resolve_index` equations, the
`-1` end bounds, and the in-range selection on a concrete 2 by 2 matrix, with
every hypothesis discharged by computation. -/
theorem resolve_index_selectMatrixBlock_spec_witness :
    ((0 : Int) ≤ 1 ∧ resolve_index 1 5 = 1)
    ∧ ((-2 : Int) < 0 ∧ resolve_index (-2) 5 = (5 : Int) + (-2) + 1)
    ∧ selectMatrixBlock ([[10, 11], [12, 13]] : List (List Nat)) 0 0 (-1) 2
        = selectMatrixBlock ([[10, 11], [12, 13]] : List (List Nat)) 0 0
            ((([[10, 11], [12, 13]] : List (List Nat)).length : Int)) 2
    ∧ selectMatrixBlock ([[10, 11], [12, 13]] : List (List Nat)) 0 0 2 (-1)
        = selectMatrixBlock ([[10, 11], [12, 13]] : List (List Nat)) 0 0 2
            ((([[10, 11], [12, 13]] : List (List Nat)).length : Int))
    ∧ (([[10, 11], [12, 13]] : List (List Nat)).length = 2
       ∧ (∀ row ∈ ([[10, 11], [12, 13]] : List (List Nat)), row.length = 2)
       ∧ (0 : Int) ≤ 0 ∧ (0 : Int) ≤ 2 ∧ (2 : Int) ≤ ((2 : Nat) : Int))
    ∧ (∃ block,
        selectMatrixBlock ([[10, 11], [12, 13]] : List (List Nat)) 0 0 2 2 = .ok block
        ∧ block.length = ((2 : Int) - 0).toNat
        ∧ (∀ row ∈ block, row.length = ((2 : Int) - 0).toNat)
        ∧ ∀ i j : Nat, i < ((2 : Int) - 0).toNat → j < ((2 : Int) - 0).toNat →
            getCell block i j
              = some (getCell ([[10, 11], [12, 13]] : List (List Nat))
                  ((0 : Int).toNat + i) ((0 : Int).toNat + j))) :=
  ⟨⟨by decide, ((resolve_index_selectMatrixBlock_spec Nat).1 1 5).1 (by decide)⟩,
   ⟨by decide, ((resolve_index_selectMatrixBlock_spec Nat).1 (-2) 5).2 (by decide)⟩,
   (resolve_index_selectMatrixBlock_spec Nat).2.1 [[10, 11], [12, 13]] 0 0 2,
   (resolve_index_selectMatrixBlock_spec Nat).2.2.1 [[10, 11], [12, 13]] 0 0 2,
   ⟨by decide, by decide, by decide, by decide, by decide⟩,
   (resolve_index_selectMatrixBlock_spec Nat).2.2.2 [[10, 11], [12, 13]] 2 0 0 2 2
     (by decide) (by decide) (by decide) (by decide) (by decide) (by decide)
     (by decide) (by decide)⟩
